import Mathlib

/-!
Verification development for the arXiv-browse listing-query engine
(`browse/services/database/listings.py`).

The Python module is shallowly embedded: the SQL queries issued through
SQLAlchemy are modelled as list transformations over an explicit database
state (documents, document-category associations, metadata rows), and the
taxonomy data imported from the external `arxiv.taxonomy` package is
modelled as an explicit parameter.  Python exceptions (`BadRequest`,
`IndexError`, `ValueError`) are modelled with `Except` / `Option`.
-/

/-! ## String helpers (SQL `LIKE` / `startswith`, Python `split` / `int`) -/

/-- Boolean prefix test on character lists. -/
def charPrefixB : List Char → List Char → Bool
  | [], _ => true
  | _ :: _, [] => false
  | a :: as, b :: bs => a == b && charPrefixB as bs

/-- Boolean infix (substring) test on character lists. -/
def charInfixB (sub : List Char) : List Char → Bool
  | [] => sub.isEmpty
  | c :: rest => charPrefixB sub (c :: rest) || charInfixB sub rest

/-- `s` starts with `p` (SQLAlchemy `.startswith(p)`, i.e. `LIKE 'p%'`). -/
def sql_startswith (s p : String) : Bool :=
  charPrefixB p.toList s.toList

/-- `s` contains `sub` (SQLAlchemy `.contains(sub)` / `.like('%sub%')`). -/
def sql_contains (s sub : String) : Bool :=
  charInfixB sub.toList s.toList

/-- Python `f"{n:02d}"`: decimal rendering zero-padded to two digits. -/
def pad2 (n : Nat) : String :=
  if n < 10 then "0" ++ toString n else toString n

/-- Accumulator for `pySplit`: current partial token (reversed). -/
def pySplitAux : List Char → List Char → List String
  | [], acc => if acc.isEmpty then [] else [String.mk acc.reverse]
  | c :: rest, acc =>
    if c == ' ' then
      if acc.isEmpty then pySplitAux rest []
      else String.mk acc.reverse :: pySplitAux rest []
    else pySplitAux rest (c :: acc)

/-- Python `str.split()` on spaces: splits on runs of spaces, drops empty
tokens (`"".split() = []`). -/
def pySplit (s : String) : List String :=
  pySplitAux s.toList []

/-- Digit-string accumulator for `pyInt`. -/
def digitsToNatAux : List Char → Nat → Option Nat
  | [], acc => some acc
  | c :: rest, acc =>
    if c.isDigit then digitsToNatAux rest (acc * 10 + (c.toNat - 48)) else none

/-- Python `int(s)` on the digit substrings this module extracts:
an optional minus sign followed by at least one decimal digit; anything
else raises `ValueError`, modelled as `none`. -/
def pyInt (s : String) : Option Int :=
  match s.toList with
  | [] => none
  | '-' :: rest =>
    match rest with
    | [] => none
    | _ :: _ => (digitsToNatAux rest 0).map (fun n => -(n : Int))
  | l => (digitsToNatAux l 0).map (fun n => (n : Int))

/-! ## Taxonomy data (external collaborator `arxiv.taxonomy`) -/

/-- The fields of an `arxiv.taxonomy.definitions.CATEGORIES` entry that
`listings.py` reads. -/
structure CategoryInfo where
  in_archive : String
deriving DecidableEq

/-- Modelled from the spec: the static taxonomy data provided by the
external `arxiv` package (archive list, category table, bidirectional
alias pairs, subsumed-archive mapping).  The Python dicts are modelled as
association lists iterated in order. -/
structure Taxonomy where
  ARCHIVES : List String
  CATEGORIES : List (String × CategoryInfo)
  CATEGORY_ALIASES : List (String × String)
  ARCHIVES_SUBSUMED : List (String × String)

/-- The alias-scanning loop of `_check_alternate_name`. -/
def aliasLoop : List (String × String) → String → Option String
  | [], _ => none
  | (key, value) :: rest, category =>
    if category == key then some value
    else if category == value then some key
    else aliasLoop rest category

/-- The subsumed-archive-scanning loop of `_check_alternate_name`. -/
def subsumedLoop : List (String × String) → String → Option String
  | [], _ => none
  | (_key, value) :: rest, category =>
    if category == value then some _key
    else subsumedLoop rest category

/-- `_check_alternate_name`: alternate name for aliases, or the previous
name if an archive was subsumed. -/
def _check_alternate_name (T : Taxonomy) (category : String) : Option String :=
  match aliasLoop T.CATEGORY_ALIASES category with
  | some v => some v
  | none => subsumedLoop T.ARCHIVES_SUBSUMED category

/-- The loop body of `get_categories_from_archive`: walk the `CATEGORIES`
table, keep categories whose `in_archive` is the requested archive,
appending the alternate name right after a kept category when one exists. -/
def archiveCatLoop (T : Taxonomy) : List (String × CategoryInfo) → String → List String
  | [], _ => []
  | (category, info) :: rest, archive =>
    if info.in_archive == archive then
      match _check_alternate_name T category with
      | some second_name => category :: second_name :: archiveCatLoop T rest archive
      | none => category :: archiveCatLoop T rest archive
    else archiveCatLoop T rest archive

/-- `get_categories_from_archive`. -/
def get_categories_from_archive (T : Taxonomy) (archive : String) : List String :=
  archiveCatLoop T T.CATEGORIES archive

/-- Errors surfaced by the listing queries: `BadRequest` from category
resolution and `IndexError` from taking the first token of an empty
category string. -/
inductive ListingError
  | badRequest
  | indexError
deriving DecidableEq

/-- `_all_possible_categories`: all categories of an archive, or a
category together with its alternate names; raises `BadRequest`
(modelled as `.error .badRequest`) on an unknown token. -/
def _all_possible_categories (T : Taxonomy) (archive_or_cat : String) :
    Except ListingError (List String) :=
  if T.ARCHIVES.contains archive_or_cat then
    .ok (get_categories_from_archive T archive_or_cat)
  else if (T.CATEGORIES.map Prod.fst).contains archive_or_cat then
    match _check_alternate_name T archive_or_cat with
    | some second_name => .ok [archive_or_cat, second_name]
    | none => .ok [archive_or_cat]
  else .error .badRequest

/-! ## Database state (external metadata store) -/

/-- A row of the `Document` table (the columns `listings.py` reads). -/
structure Document where
  document_id : Nat
  paper_id : String
deriving DecidableEq

/-- A row of the `DocumentCategory` association table. -/
structure DocumentCategory where
  document_id : Nat
  category : String
  is_primary : Nat
deriving DecidableEq

/-- A row of the `Metadata` table (the columns `listings.py` reads). -/
structure Metadata where
  document_id : Nat
  paper_id : String
  title : String
  authors : String
  abstract : String
  abs_categories : String
  comments : String
  journal_ref : String
  version : Nat
  source_size : Nat
  source_flags : String
  is_current : Nat
deriving DecidableEq

/-- The database state visible to the listing queries. -/
structure DB where
  documents : List Document
  document_categories : List DocumentCategory
  metadata : List Metadata

/-! ## Identifier era filter (`get_articles_for_month`, lines 55-75) -/

/-- Python truthiness of the optional `month` argument: `None` and `0`
are falsy. -/
def optTruthy (mo : Option Nat) : Bool :=
  match mo with
  | none => false
  | some m => m != 0

/-- The paper-id filter built by `get_articles_for_month`: dispatches on
`if month:` (Python truthiness) and on the year relative to the 2007
identifier-era boundary. -/
def eraFilter (year : Nat) (month : Option Nat) (pid : String) : Bool :=
  if optTruthy month then
    if year > 2007 then
      sql_startswith pid (pad2 (year % 100) ++ pad2 (month.getD 0))
    else if year < 2007 then
      sql_contains pid ("/" ++ pad2 (year % 100) ++ pad2 (month.getD 0))
    else
      sql_startswith pid (pad2 (year % 100) ++ pad2 (month.getD 0)) ||
        sql_contains pid ("/" ++ pad2 (year % 100) ++ pad2 (month.getD 0))
  else
    if year > 2007 then
      sql_startswith pid (pad2 (year % 100))
    else if year < 2007 then
      sql_contains pid ("/" ++ pad2 (year % 100))
    else
      sql_startswith pid (pad2 (year % 100)) ||
        sql_contains pid ("/" ++ pad2 (year % 100))

/-! ## Listing query pipeline (`get_articles_for_month`) -/

/-- The document-id subquery: documents whose paper id passes the era
filter. -/
def doc_ids (db : DB) (year : Nat) (month : Option Nat) : List Nat :=
  (db.documents.filter (fun d => eraFilter year month d.paper_id)).map
    (fun d => d.document_id)

/-- The document-category rows restricted to the era-selected documents
and the resolved category list (the filter of the `cat_query` subquery). -/
def filtered_cats (db : DB) (ids : List Nat) (category_list : List String) :
    List DocumentCategory :=
  db.document_categories.filter
    (fun dc => ids.contains dc.document_id && category_list.contains dc.category)

/-- The `cat_query` subquery: the filtered document-category rows grouped
by document id with `max(is_primary)` per group. -/
def cat_query (db : DB) (ids : List Nat) (category_list : List String) :
    List (Nat × Nat) :=
  let filtered := filtered_cats db ids category_list
  let groups := (filtered.map (fun dc => dc.document_id)).dedup
  groups.map (fun g =>
    (g, ((filtered.filter (fun dc => dc.document_id == g)).map
          (fun dc => dc.is_primary)).foldr Nat.max 0))

/-- The `main_query` join: each grouped category row joined to the
current (`is_current = 1`) metadata rows of the same document. -/
def main_query (db : DB) (cq : List (Nat × Nat)) : List (Metadata × Nat) :=
  cq.flatMap (fun row =>
    (db.metadata.filter (fun m => m.document_id == row.1 && m.is_current == 1)).map
      (fun m => (m, row.2)))

/-- Lexicographic ≤ on character lists (binary string collation). -/
def charListLE : List Char → List Char → Bool
  | [], _ => true
  | _ :: _, [] => false
  | a :: as, b :: bs => if a == b then charListLE as bs else decide (a < b)

/-- Lexicographic ≤ on strings, used for the `ORDER BY paper_id` key. -/
def str_le (a b : String) : Bool :=
  charListLE a.toList b.toList

/-- The `ORDER BY cat_query.c.is_primary DESC, meta.paper_id` key as a
boolean relation on joined rows. -/
def row_le (a b : Metadata × Nat) : Bool :=
  decide (b.2 < a.2) || (a.2 == b.2 && str_le a.1.paper_id b.1.paper_id)

/-- `row_le` as a `Prop` relation, for `List.insertionSort`. -/
def rowRel (a b : Metadata × Nat) : Prop :=
  row_le a b = true

instance : DecidableRel rowRel := fun a b => instDecidableEqBool (row_le a b) true

/-- The joined, flagged rows of `main_query` for a resolved category
list and period. -/
def joined_rows (db : DB) (category_list : List String) (year : Nat)
    (month : Option Nat) : List (Metadata × Nat) :=
  main_query db (cat_query db (doc_ids db year month) category_list)

/-- The ordered page of rows: `ORDER BY is_primary DESC, paper_id` with
`OFFSET skip LIMIT show`. -/
def page_rows (db : DB) (category_list : List String) (year : Nat)
    (month : Option Nat) (skip show_ : Nat) : List (Metadata × Nat) :=
  ((List.insertionSort rowRel (joined_rows db category_list year month)).drop skip).take show_

/-! ## Listing items (`_entries_into_listing_items`) -/

/-- The `Category` domain value object: `listings.py` only reads back
its `id`, which is the string it was constructed from. -/
structure Category where
  id : String
deriving DecidableEq

/-- A single entry of the version history built for a listing item. -/
structure VersionEntry where
  version : Nat
  raw : String
  submitted_date : Option Unit
  size_kilobytes : Nat
  source_flag : String
deriving DecidableEq

/-- The underfilled `DocMetadata` view built for listing display (the
fields `_entries_into_listing_items` fills; fields it sets to `None`
are modelled as `Option` fields holding `none`). -/
structure DocMetadata where
  arxiv_id : String
  arxiv_id_v : String
  title : String
  authors : String
  abstract : String
  categories : String
  primary_category : Category
  secondary_categories : List Category
  comments : String
  journal_ref : String
  version : Nat
  version_history : List VersionEntry
  raw_safe : String
  submitter : Option Unit
  modified : Option Unit
deriving DecidableEq

/-- A listing entry. -/
structure ListingItem where
  id : String
  listingType : String
  primary : String
  article : DocMetadata
deriving DecidableEq

/-- The `DocMetadata` value built from one metadata row
(`_entries_into_listing_items`, lines 123-152).  The first token of the
split category string is read with `headD`; the enclosing function
guards against the empty split, which in Python raises `IndexError`. -/
def mk_doc_metadata (meta : Metadata) : DocMetadata :=
  { arxiv_id := meta.paper_id
    arxiv_id_v := meta.paper_id ++ "v" ++ toString meta.version
    title := meta.title
    authors := meta.authors
    abstract := meta.abstract
    categories := meta.abs_categories
    primary_category := Category.mk ((pySplit meta.abs_categories).headD "")
    secondary_categories := (pySplit meta.abs_categories).tail.map Category.mk
    comments := meta.comments
    journal_ref := meta.journal_ref
    version := meta.version
    version_history :=
      [{ version := meta.version
         raw := ""
         submitted_date := none
         size_kilobytes := meta.source_size
         source_flag := meta.source_flags }]
    raw_safe := ""
    submitter := none
    modified := none }

/-- The `ListingItem` built from one joined row (lines 154-159). -/
def mk_listing_item (meta : Metadata) (primary : Nat) : ListingItem :=
  { id := meta.paper_id
    listingType := if primary == 1 then "new" else "cross"
    primary := (Category.mk ((pySplit meta.abs_categories).headD "")).id
    article := mk_doc_metadata meta }

/-- `_entries_into_listing_items`: partition the joined rows into new
(any-primary flag = 1) and cross listing items, preserving row order.
Taking the first token of an empty category split raises `IndexError`,
modelled as `none`. -/
def _entries_into_listing_items :
    List (Metadata × Nat) → Option (List ListingItem × List ListingItem)
  | [] => some ([], [])
  | (meta, primary) :: rest =>
    if pySplit meta.abs_categories = [] then none
    else
      match _entries_into_listing_items rest with
      | none => none
      | some (new_listings, cross_listings) =>
        if primary == 1 then
          some (mk_listing_item meta primary :: new_listings, cross_listings)
        else
          some (new_listings, mk_listing_item meta primary :: cross_listings)

/-! ## The `Listing` result -/

/-- Modelled from the spec: `gen_expires` (from `browse.services.listing`,
outside this module) generates an expiry timestamp; its value is opaque
to the listing logic, so it is modelled as a fixed string. -/
def gen_expires : String := ""

/-- The `Listing` result object. `pubdates` pairs a `(year, month, day)`
date with the literal `1`. -/
structure Listing where
  listings : List ListingItem
  pubdates : List ((Nat × Nat × Nat) × Nat)
  count : Nat
  expires : String
deriving DecidableEq

/-- `get_articles_for_month`: resolve the category set, select documents
by era, group category membership with an any-primary flag, join to
current metadata, order by (any-primary desc, paper id asc), paginate,
and assemble new-then-cross listing items. -/
def get_articles_for_month (T : Taxonomy) (db : DB) (archive_or_cat : String)
    (year : Nat) (month : Option Nat) (skip show_ : Nat) :
    Except ListingError Listing :=
  match _all_possible_categories T archive_or_cat with
  | .error e => .error e
  | .ok category_list =>
    let joined := joined_rows db category_list year month
    let rows := page_rows db category_list year month skip show_
    match _entries_into_listing_items rows with
    | none => .error .indexError
    | some (new_listings, cross_listings) =>
      .ok { listings := new_listings ++ cross_listings
            pubdates := [((year, (if optTruthy month then month.getD 1 else 1), 1), 1)]
            count := joined.length
            expires := gen_expires }

/-! ## Yearly counts (`get_yearly_article_counts` and helpers) -/

/-- Per-month counts. -/
structure MonthCount where
  year : Nat
  month : Nat
  new : Nat
  cross : Nat
deriving DecidableEq

/-- Per-year counts with the twelve month entries. -/
structure YearCount where
  year : Nat
  new_count : Nat
  cross_count : Nat
  by_month : List MonthCount
deriving DecidableEq

/-- One row of a grouped count query: the extracted month key string and
the distinct-paper-id counts for the "new" and "cross" classifications. -/
structure CountRow where
  month : String
  count_new : Nat
  count_cross : Nat
deriving DecidableEq

/-- The `case` classification shared by both count queries: categories
string starts with the archive token → `"new"`; contains the token
preceded by a space → `"cross"`; otherwise `"no_match"`. -/
def categorization_case (archive : String) (m : Metadata) : String :=
  if sql_startswith m.abs_categories archive then "new"
  else if sql_contains m.abs_categories (" " ++ archive) then "cross"
  else "no_match"

/-- SQL `substr(s, 3, 2)`: two characters starting at 1-indexed
position 3. -/
def substr_3_2 (s : String) : String :=
  String.mk ((s.toList.drop 2).take 2)

/-- MySQL `substring_index(s, '/', -1)`: the part after the last `/`
(the whole string when there is no `/`). -/
def substring_index_last (s : String) : String :=
  (s.splitOn "/").getLastD ""

/-- The grouped count query of `_get_yearly_article_counts_new_id`:
metadata rows whose paper id starts with the two-digit year, grouped by
`substr(paper_id, 3, 2)`, counting distinct paper ids per
classification.  No `is_current` filter is applied. -/
def new_id_rows (db : DB) (archive : String) (year : Nat) : List CountRow :=
  let eligible := db.metadata.filter
    (fun m => sql_startswith m.paper_id (pad2 (year % 100)))
  let keys := (eligible.map (fun m => substr_3_2 m.paper_id)).dedup
  keys.map (fun k =>
    { month := k
      count_new :=
        ((eligible.filter (fun m =>
            substr_3_2 m.paper_id == k && categorization_case archive m == "new")).map
          (fun m => m.paper_id)).dedup.length
      count_cross :=
        ((eligible.filter (fun m =>
            substr_3_2 m.paper_id == k && categorization_case archive m == "cross")).map
          (fun m => m.paper_id)).dedup.length })

/-- The grouped count query of `_get_yearly_article_counts_old_id`:
metadata rows whose paper id contains `/YY`, grouped by
`substring(substring_index(paper_id, '/', -1), 3, 2)`, counting distinct
paper ids per classification.  No `is_current` filter is applied. -/
def old_id_rows (db : DB) (archive : String) (year : Nat) : List CountRow :=
  let eligible := db.metadata.filter
    (fun m => sql_contains m.paper_id ("/" ++ pad2 (year % 100)))
  let keys := (eligible.map (fun m => substr_3_2 (substring_index_last m.paper_id))).dedup
  keys.map (fun k =>
    { month := k
      count_new :=
        ((eligible.filter (fun m =>
            substr_3_2 (substring_index_last m.paper_id) == k &&
              categorization_case archive m == "new")).map
          (fun m => m.paper_id)).dedup.length
      count_cross :=
        ((eligible.filter (fun m =>
            substr_3_2 (substring_index_last m.paper_id) == k &&
              categorization_case archive m == "cross")).map
          (fun m => m.paper_id)).dedup.length })

/-- The twelve zero-initialised `MonthCount` entries. -/
def init_monthlist (year : Nat) : List MonthCount :=
  (List.range 12).map (fun i => { year := year, month := i + 1, new := 0, cross := 0 })

/-- Python list indexing: a negative index counts from the end;
out-of-range indexing raises `IndexError`, modelled as `none`. -/
def pyListIndex (len : Nat) (i : Int) : Option Nat :=
  if 0 ≤ i then
    if i < (len : Int) then some i.toNat else none
  else
    if -(len : Int) ≤ i then some ((len : Int) + i).toNat else none

/-- Default `MonthCount` used for the (unreachable) `getD` fallback. -/
def mc0 : MonthCount := { year := 0, month := 0, new := 0, cross := 0 }

/-- The loop of `_process_yearly_article_counts`: overwrite the month
entry selected by `int(entry.month) - 1` and accumulate the totals.
`int` failure (`ValueError`) and out-of-range indexing (`IndexError`)
are modelled as `none`. -/
def process_loop (year : Nat) :
    List CountRow → List MonthCount → Nat → Nat → Option YearCount
  | [], monthlist, new_total, cross_total =>
    some { year := year, new_count := new_total, cross_count := cross_total,
           by_month := monthlist }
  | entry :: rest, monthlist, new_total, cross_total =>
    match pyInt entry.month with
    | none => none
    | some mval =>
      match pyListIndex monthlist.length (mval - 1) with
      | none => none
      | some idx =>
        let old := monthlist.getD idx mc0
        process_loop year rest
          (monthlist.set idx { old with new := entry.count_new, cross := entry.count_cross })
          (new_total + entry.count_new) (cross_total + entry.count_cross)

/-- `_process_yearly_article_counts`. -/
def _process_yearly_article_counts (query_result : List CountRow) (year : Nat) :
    Option YearCount :=
  process_loop year query_result (init_monthlist year) 0 0

/-- `_get_yearly_article_counts_new_id`. -/
def _get_yearly_article_counts_new_id (db : DB) (archive : String) (year : Nat) :
    Option YearCount :=
  _process_yearly_article_counts (new_id_rows db archive year) year

/-- `_get_yearly_article_counts_old_id`. -/
def _get_yearly_article_counts_old_id (db : DB) (archive : String) (year : Nat) :
    Option YearCount :=
  _process_yearly_article_counts (old_id_rows db archive year) year

/-- `_combine_yearly_article_counts`: element-wise sum of the two month
lists, totals added, year label from the first operand.  Indexing
`by_month[i-1]` for `i` in `1..12` raises `IndexError` when a month list
is shorter than 12, modelled as `none`. -/
def _combine_yearly_article_counts (yc1 yc2 : YearCount) : Option YearCount :=
  if 12 ≤ yc1.by_month.length ∧ 12 ≤ yc2.by_month.length then
    some { year := yc1.year
           new_count := yc1.new_count + yc2.new_count
           cross_count := yc1.cross_count + yc2.cross_count
           by_month := (List.range 12).map (fun i =>
             { year := yc1.year
               month := i + 1
               new := (yc1.by_month.getD i mc0).new + (yc2.by_month.getD i mc0).new
               cross := (yc1.by_month.getD i mc0).cross + (yc2.by_month.getD i mc0).cross }) }
  else none

/-- The `math` / `math-ph` disambiguation at the top of
`get_yearly_article_counts`. -/
def adjusted_archive (archive : String) : String :=
  if archive == "math" && !(sql_contains archive ".") then archive ++ "." else archive

/-- `get_yearly_article_counts`: dispatch on the year relative to the
2007 identifier-era boundary, combining both eras for 2007. -/
def get_yearly_article_counts (db : DB) (archive : String) (year : Nat) :
    Option YearCount :=
  let archive2 := adjusted_archive archive
  if year > 2007 then _get_yearly_article_counts_new_id db archive2 year
  else if year == 2007 then
    match _get_yearly_article_counts_old_id db archive2 year,
          _get_yearly_article_counts_new_id db archive2 year with
    | some old_id_count, some new_id_count =>
      _combine_yearly_article_counts new_id_count old_id_count
    | _, _ => none
  else _get_yearly_article_counts_old_id db archive2 year

/-! ## Spec-side predicates (for refinement statements) -/

/-- The spec's new-format rule: the identifier starts with the
zero-padded `YYMM` (or `YY` when the month is omitted). -/
def new_format_match (year : Nat) (month : Option Nat) (pid : String) : Bool :=
  match month with
  | some m => sql_startswith pid (pad2 (year % 100) ++ pad2 m)
  | none => sql_startswith pid (pad2 (year % 100))

/-- The spec's old-format rule: the identifier contains `/` followed by
the zero-padded `YYMM` (or `YY` when the month is omitted). -/
def old_format_match (year : Nat) (month : Option Nat) (pid : String) : Bool :=
  match month with
  | some m => sql_contains pid ("/" ++ pad2 (year % 100) ++ pad2 m)
  | none => sql_contains pid ("/" ++ pad2 (year % 100))

/-- The precondition of the yearly aggregate-conservation claim: every
month key extracted by a grouped count query parses to an integer in
`1..12`, and the parsed month values are pairwise distinct. -/
def monthsWellFormed (rows : List CountRow) : Prop :=
  (∀ r ∈ rows, 1 ≤ (pyInt r.month).getD 0 ∧ (pyInt r.month).getD 0 ≤ 12) ∧
  (rows.map (fun r => pyInt r.month)).Nodup

/-! ## Concrete fixtures used by witness theorems -/

/-- A metadata row with fixed display fields. -/
def fixMeta (did : Nat) (pid cats : String) (cur : Nat) : Metadata :=
  { document_id := did, paper_id := pid, title := "t", authors := "a"
    abstract := "ab", abs_categories := cats, comments := "", journal_ref := ""
    version := 1, source_size := 1, source_flags := "", is_current := cur }

/-- A small taxonomy: archive `cs` with categories `cs.AI`, `cs.LG`. -/
def Tfix : Taxonomy :=
  { ARCHIVES := ["cs"]
    CATEGORIES := [("cs.AI", { in_archive := "cs" }), ("cs.LG", { in_archive := "cs" })]
    CATEGORY_ALIASES := []
    ARCHIVES_SUBSUMED := [] }

/-- A taxonomy with one alias pair `A ⇄ B`, both known categories. -/
def TfixAlias : Taxonomy :=
  { ARCHIVES := []
    CATEGORIES := [("A", { in_archive := "x" }), ("B", { in_archive := "x" })]
    CATEGORY_ALIASES := [("A", "B")]
    ARCHIVES_SUBSUMED := [] }

/-- A small database: document 1 is primary in `cs.AI`, document 2 is
primary in `cs.LG` and secondary in `cs.AI`; both from March 2009. -/
def DBfix : DB :=
  { documents := [{ document_id := 1, paper_id := "0903.0001" },
                  { document_id := 2, paper_id := "0903.0002" }]
    document_categories := [{ document_id := 1, category := "cs.AI", is_primary := 1 },
      { document_id := 2, category := "cs.AI", is_primary := 0 },
      { document_id := 2, category := "cs.LG", is_primary := 1 }]
    metadata := [fixMeta 1 "0903.0001" "cs.AI cs.LG" 1,
                 fixMeta 2 "0903.0002" "cs.LG cs.AI" 1] }

/-- A database whose single metadata row is *not* current. -/
def DBnonCurrent : DB :=
  { documents := []
    document_categories := []
    metadata := [fixMeta 1 "0903.0001" "cs.AI cs.LG" 0] }

/-- Fallback listing for fixture extraction. -/
def emptyListing : Listing := { listings := [], pubdates := [], count := 0, expires := "" }

/-- The listing returned for `cs.AI`, March 2009 on `DBfix`. -/
def LfixMonthly : Listing :=
  match get_articles_for_month Tfix DBfix "cs.AI" 2009 (some 3) 0 5 with
  | .ok l => l
  | .error _ => emptyListing

/-- The listing returned for `cs.AI`, month `0` of 2009 on `DBfix`. -/
def LfixZero : Listing :=
  match get_articles_for_month Tfix DBfix "cs.AI" 2009 (some 0) 0 5 with
  | .ok l => l
  | .error _ => emptyListing

/-- A twelve-month `YearCount` fixture. -/
def ycFix1 : YearCount :=
  { year := 2007, new_count := 3, cross_count := 4
    by_month := (List.range 12).map
      (fun i => { year := 2007, month := i + 1, new := i, cross := i + 1 }) }

/-- A second twelve-month `YearCount` fixture for the same year. -/
def ycFix2 : YearCount :=
  { year := 2007, new_count := 5, cross_count := 6
    by_month := (List.range 12).map
      (fun i => { year := 2007, month := i + 1, new := 2 * i, cross := i } ) }

/-- Fallback `YearCount` for fixture extraction. -/
def emptyYearCount : YearCount :=
  { year := 0, new_count := 0, cross_count := 0, by_month := [] }

/-- The combination of the two `YearCount` fixtures. -/
def ycFixCombined : YearCount :=
  match _combine_yearly_article_counts ycFix1 ycFix2 with
  | some yc => yc
  | none => emptyYearCount

/-- The yearly counts for archive `cs`, year 2009 on `DBfix`. -/
def ycFixCounts : YearCount :=
  match get_yearly_article_counts DBfix "cs" 2009 with
  | some yc => yc
  | none => emptyYearCount

/-- The yearly counts for archive `cs`, year 2009 on `DBnonCurrent`. -/
def ycNonCurrent : YearCount :=
  match get_yearly_article_counts DBnonCurrent "cs" 2009 with
  | some yc => yc
  | none => emptyYearCount

/-! ## Theorems -/

/-- C2: the era filter built by `get_articles_for_month` accepts, for
year 2007, exactly the identifiers matching the new-format rule or the
old-format rule; for years after 2007 exactly the new-format matches;
for years before 2007 exactly the old-format matches (for a month that
is either omitted or nonzero). -/
theorem era_filter_matches_era_rules (year : Nat) (month : Option Nat) (pid : String)
    (hm : ∀ m, month = some m → m ≠ 0) :
    eraFilter year month pid =
      if 2007 < year then new_format_match year month pid
      else if year < 2007 then old_format_match year month pid
      else new_format_match year month pid || old_format_match year month pid := by
  cases month with
  | none =>
    simp [eraFilter, optTruthy, new_format_match, old_format_match]
  | some m =>
    have hm0 : m ≠ 0 := hm m rfl
    simp [eraFilter, optTruthy, hm0, new_format_match, old_format_match, String.append_assoc]

/-- Witness for C2 at the boundary year 2007, month 3. -/
theorem era_filter_matches_era_rules_witness :
    eraFilter 2007 (some 3) "0703.0001" =
      (new_format_match 2007 (some 3) "0703.0001" ||
        old_format_match 2007 (some 3) "0703.0001") := by
  have h := era_filter_matches_era_rules 2007 (some 3) "0703.0001"
    (by intro m hm; cases hm; decide)
  norm_num at h
  exact h

/-- C7: category resolution fails with `BadRequest` exactly on those
tokens that are neither a known archive nor a known category; in
particular it never silently returns a result (empty or otherwise) for
an unknown token, and never raises for a known one. -/
theorem resolution_fails_iff_unknown (T : Taxonomy) (tok : String) :
    _all_possible_categories T tok = .error .badRequest ↔
      ¬(tok ∈ T.ARCHIVES ∨ tok ∈ T.CATEGORIES.map Prod.fst) := by
  unfold _all_possible_categories
  by_cases h1 : tok ∈ T.ARCHIVES
  · have : T.ARCHIVES.contains tok = true := List.elem_iff.mpr h1
    simp [this, h1]
  · have h1c : T.ARCHIVES.contains tok = false := by
      simp only [Bool.eq_false_iff]
      intro hc
      exact h1 (List.elem_iff.mp hc)
    by_cases h2 : tok ∈ T.CATEGORIES.map Prod.fst
    · have h2c : (T.CATEGORIES.map Prod.fst).contains tok = true := List.elem_iff.mpr h2
      simp only [h1c, h2c, Bool.false_eq_true, if_false, if_true]
      cases _check_alternate_name T tok <;> simp [h1, h2]
    · have h2c : (T.CATEGORIES.map Prod.fst).contains tok = false := by
        simp only [Bool.eq_false_iff]
        intro hc
        exact h2 (List.elem_iff.mp hc)
      simp [h1c, h2c, h1, h2]

/-- C9: converting query rows into listing items fails (Python
`IndexError` on `split()[0]`) whenever some row's space-separated
category string has no tokens, so `get_articles_for_month` presupposes
a nonempty category string on every joined current metadata record. -/
theorem empty_category_string_fails (rows : List (Metadata × Nat))
    (h : ∃ r ∈ rows, pySplit r.1.abs_categories = []) :
    _entries_into_listing_items rows = none := by
  induction rows with
  | nil => simp at h
  | cons r rest ih =>
    obtain ⟨meta, primary⟩ := r
    obtain ⟨s, hs, hsplit⟩ := h
    rcases List.mem_cons.mp hs with heq | hmem
    · subst heq
      simp only [_entries_into_listing_items]
      rw [if_pos hsplit]
    · have hrest : _entries_into_listing_items rest = none :=
        ih ⟨s, hmem, hsplit⟩
      simp only [_entries_into_listing_items, hrest]
      split
      · rfl
      · rfl

/-- Witness for C9: a row whose category string is blank. -/
theorem empty_category_string_fails_witness :
    _entries_into_listing_items [(fixMeta 1 "0903.0001" "" 1, 1)] = none := by
  apply empty_category_string_fails
  refine ⟨(fixMeta 1 "0903.0001" "" 1, 1), ?_, ?_⟩
  · simp
  · rfl

/-- C10: requesting month `0` behaves exactly like omitting the month
(Python truthiness of `if month:`): the same yearly result is returned —
in particular the era filter only uses the two-digit year prefix and the
request is not rejected — and the `pubdates` entry of a successful
result uses month 1. -/
theorem month_zero_behaves_as_yearly (T : Taxonomy) (db : DB) (tok : String)
    (year skip show_ : Nat) :
    get_articles_for_month T db tok year (some 0) skip show_ =
      get_articles_for_month T db tok year none skip show_ ∧
    ∀ L, get_articles_for_month T db tok year (some 0) skip show_ = .ok L →
      L.pubdates = [((year, 1, 1), 1)] := by
  refine ⟨rfl, ?_⟩
  intro L hL
  have hL2 : get_articles_for_month T db tok year none skip show_ = .ok L := hL
  unfold get_articles_for_month at hL2
  split at hL2
  · exact absurd hL2 (by simp)
  · split at hL2
    · rename_i htru
      exact absurd htru (by decide)
    · dsimp only at hL2
      split at hL2
      · exact absurd hL2 (by simp)
      · rw [Except.ok.injEq] at hL2
        subst hL2
        rfl

/-- Witness for C10 on the concrete fixture database. -/
theorem month_zero_behaves_as_yearly_witness :
    (get_articles_for_month Tfix DBfix "cs.AI" 2009 (some 0) 0 5 =
       get_articles_for_month Tfix DBfix "cs.AI" 2009 none 0 5) ∧
    LfixZero.pubdates = [((2009, 1, 1), 1)] := by
  have h := month_zero_behaves_as_yearly Tfix DBfix "cs.AI" 2009 0 5
  exact ⟨h.1, h.2 LfixZero rfl⟩

/-- C5: for two `YearCount` values of the same year, the 2007 merge
produces element-wise sums of the per-month new/cross values, totals
equal to the sums of the inputs' totals, and the first operand's year
label. -/
theorem combine_is_elementwise_sum (yc1 yc2 : YearCount) (_hy : yc1.year = yc2.year)
    (r : YearCount) (hr : _combine_yearly_article_counts yc1 yc2 = some r) :
    r.year = yc1.year ∧
    r.new_count = yc1.new_count + yc2.new_count ∧
    r.cross_count = yc1.cross_count + yc2.cross_count ∧
    ∀ i, i < 12 →
      (r.by_month.getD i mc0).new =
        (yc1.by_month.getD i mc0).new + (yc2.by_month.getD i mc0).new ∧
      (r.by_month.getD i mc0).cross =
        (yc1.by_month.getD i mc0).cross + (yc2.by_month.getD i mc0).cross := by
  unfold _combine_yearly_article_counts at hr
  split at hr
  · rw [Option.some.injEq] at hr
    subst hr
    refine ⟨rfl, rfl, rfl, ?_⟩
    intro i hi
    constructor
    · rw [List.getD_eq_getElem _ mc0 (by simpa using hi)]
      simp
    · rw [List.getD_eq_getElem _ mc0 (by simpa using hi)]
      simp
  · exact absurd hr (by simp)

/-- Witness for C5 on the two `YearCount` fixtures. -/
theorem combine_is_elementwise_sum_witness :
    ycFixCombined.year = ycFix1.year ∧
    ycFixCombined.new_count = ycFix1.new_count + ycFix2.new_count ∧
    ycFixCombined.cross_count = ycFix1.cross_count + ycFix2.cross_count ∧
    ∀ i, i < 12 →
      (ycFixCombined.by_month.getD i mc0).new =
        (ycFix1.by_month.getD i mc0).new + (ycFix2.by_month.getD i mc0).new ∧
      (ycFixCombined.by_month.getD i mc0).cross =
        (ycFix1.by_month.getD i mc0).cross + (ycFix2.by_month.getD i mc0).cross :=
  combine_is_elementwise_sum ycFix1 ycFix2 rfl ycFixCombined rfl

/-- The new-id count query reads only paper ids and category strings:
rewriting every record's `is_current` flag leaves its rows unchanged. -/
theorem new_id_rows_ignore_is_current (db : DB) (f : Metadata → Nat)
    (archive : String) (year : Nat) :
    new_id_rows { db with metadata := db.metadata.map (fun m => { m with is_current := f m }) }
        archive year = new_id_rows db archive year := by
  simp only [new_id_rows, List.filter_map, List.map_map]
  rfl

/-- The old-id count query reads only paper ids and category strings:
rewriting every record's `is_current` flag leaves its rows unchanged. -/
theorem old_id_rows_ignore_is_current (db : DB) (f : Metadata → Nat)
    (archive : String) (year : Nat) :
    old_id_rows { db with metadata := db.metadata.map (fun m => { m with is_current := f m }) }
        archive year = old_id_rows db archive year := by
  simp only [old_id_rows, List.filter_map, List.map_map]
  rfl

/-- Counterexample to C4: a database whose only metadata record is not
current (`is_current = 0`) still yields a nonzero "new" count — the
yearly count queries filter only on the paper-id era pattern and never
on `is_current`. -/
theorem yearly_counts_count_non_current :
    (∀ m ∈ DBnonCurrent.metadata, m.is_current ≠ 1) ∧
    get_yearly_article_counts DBnonCurrent "cs" 2009 = some ycNonCurrent ∧
    ycNonCurrent.new_count = 1 :=
  ⟨by decide, rfl, rfl⟩

/-- C4 amended: the yearly count computation never consults the
`is_current` flag — replacing every metadata record's flag by an
arbitrary value (so in particular counting non-current records alongside
current ones) leaves every count unchanged. -/
theorem yearly_counts_ignore_is_current (db : DB) (f : Metadata → Nat)
    (archive : String) (year : Nat) :
    get_yearly_article_counts
        { db with metadata := db.metadata.map (fun m => { m with is_current := f m }) }
        archive year =
      get_yearly_article_counts db archive year := by
  unfold get_yearly_article_counts
  unfold _get_yearly_article_counts_new_id _get_yearly_article_counts_old_id
  dsimp only
  rw [new_id_rows_ignore_is_current, old_id_rows_ignore_is_current]

/-- If `(o, n)` is in the alias table and is the only pair mentioning
`o` or `n`, the scan queried with the old name returns the new name. -/
theorem aliasLoop_finds_value (o n : String) :
    ∀ l : List (String × String), (o, n) ∈ l →
      (∀ p ∈ l, (p.1 = o ∨ p.1 = n ∨ p.2 = o ∨ p.2 = n) → p = (o, n)) →
      aliasLoop l o = some n := by
  intro l
  induction l with
  | nil => intro h _; simp at h
  | cons hd tl ih =>
    intro hmem huniq
    obtain ⟨k, v⟩ := hd
    show (if o == k then some v else if o == v then some k else aliasLoop tl o) = some n
    by_cases hk : o = k
    · have hp : (k, v) = (o, n) := huniq (k, v) (List.mem_cons_self _ _) (Or.inl hk.symm)
      rw [if_pos (by exact beq_iff_eq.mpr hk)]
      rw [Prod.mk.injEq] at hp
      rw [hp.2]
    · rw [if_neg (by simpa using hk)]
      by_cases hv : o = v
      · have hp : (k, v) = (o, n) := huniq (k, v) (List.mem_cons_self _ _)
          (Or.inr (Or.inr (Or.inl hv.symm)))
        rw [Prod.mk.injEq] at hp
        exact absurd hp.1 (fun h => hk h.symm)
      · rw [if_neg (by simpa using hv)]
        have hmem' : (o, n) ∈ tl := by
          rcases List.mem_cons.mp hmem with heq | h
          · rw [Prod.mk.injEq] at heq
            exact absurd heq.1 hk
          · exact h
        exact ih hmem' (fun p hp => huniq p (List.mem_cons_of_mem _ hp))


/-- If `(o, n)` is in the alias table and is the only pair mentioning
`o` or `n`, the scan queried with the new name returns the old name. -/
theorem aliasLoop_finds_key (o n : String) :
    ∀ l : List (String × String), (o, n) ∈ l →
      (∀ p ∈ l, (p.1 = o ∨ p.1 = n ∨ p.2 = o ∨ p.2 = n) → p = (o, n)) →
      aliasLoop l n = some o := by
  intro l
  induction l with
  | nil => intro h _; simp at h
  | cons hd tl ih =>
    intro hmem huniq
    obtain ⟨k, v⟩ := hd
    show (if n == k then some v else if n == v then some k else aliasLoop tl n) = some o
    by_cases hk : n = k
    · have hp : (k, v) = (o, n) := huniq (k, v) (List.mem_cons_self _ _)
        (Or.inr (Or.inl hk.symm))
      rw [Prod.mk.injEq] at hp
      rw [if_pos (by exact beq_iff_eq.mpr hk)]
      rw [hp.2, hk.trans hp.1]
    · rw [if_neg (by simpa using hk)]
      by_cases hv : n = v
      · have hp : (k, v) = (o, n) := huniq (k, v) (List.mem_cons_self _ _)
          (Or.inr (Or.inr (Or.inr hv.symm)))
        rw [Prod.mk.injEq] at hp
        rw [if_pos (by exact beq_iff_eq.mpr hv), hp.1]
      · rw [if_neg (by simpa using hv)]
        have hmem' : (o, n) ∈ tl := by
          rcases List.mem_cons.mp hmem with heq | h
          · rw [Prod.mk.injEq] at heq
            exact absurd heq.2 hv
          · exact h
        exact ih hmem' (fun p hp => huniq p (List.mem_cons_of_mem _ hp))

/-- C8: alias resolution is symmetric — for an alias pair `(old, new)`
whose two names occur in no other alias pair and are known categories
(and not archive names), resolving either name yields a set containing
both names. -/
theorem alias_resolution_symmetric (T : Taxonomy) (o n : String)
    (hmem : (o, n) ∈ T.CATEGORY_ALIASES)
    (huniq : ∀ p ∈ T.CATEGORY_ALIASES,
      (p.1 = o ∨ p.1 = n ∨ p.2 = o ∨ p.2 = n) → p = (o, n))
    (ho_cat : o ∈ T.CATEGORIES.map Prod.fst)
    (hn_cat : n ∈ T.CATEGORIES.map Prod.fst)
    (ho_arch : o ∉ T.ARCHIVES) (hn_arch : n ∉ T.ARCHIVES) :
    ∃ lo ln, _all_possible_categories T o = .ok lo ∧
      _all_possible_categories T n = .ok ln ∧
      o ∈ lo ∧ n ∈ lo ∧ o ∈ ln ∧ n ∈ ln := by
  have ho : _check_alternate_name T o = some n := by
    unfold _check_alternate_name
    rw [aliasLoop_finds_value o n T.CATEGORY_ALIASES hmem huniq]
  have hn : _check_alternate_name T n = some o := by
    unfold _check_alternate_name
    rw [aliasLoop_finds_key o n T.CATEGORY_ALIASES hmem huniq]
  have hoarch : T.ARCHIVES.contains o = false := by
    rw [Bool.eq_false_iff]
    intro hc
    exact ho_arch (List.elem_iff.mp hc)
  have hnarch : T.ARCHIVES.contains n = false := by
    rw [Bool.eq_false_iff]
    intro hc
    exact hn_arch (List.elem_iff.mp hc)
  refine ⟨[o, n], [n, o], ?_, ?_, by simp, by simp, by simp, by simp⟩
  · unfold _all_possible_categories
    rw [hoarch]
    rw [if_neg (by simp)]
    rw [if_pos (List.elem_iff.mpr ho_cat)]
    rw [ho]
  · unfold _all_possible_categories
    rw [hnarch]
    rw [if_neg (by simp)]
    rw [if_pos (List.elem_iff.mpr hn_cat)]
    rw [hn]

/-- Witness for C8 on the alias fixture `A ⇄ B`. -/
theorem alias_resolution_symmetric_witness :
    ∃ lo ln, _all_possible_categories TfixAlias "A" = .ok lo ∧
      _all_possible_categories TfixAlias "B" = .ok ln ∧
      "A" ∈ lo ∧ "B" ∈ lo ∧ "A" ∈ ln ∧ "B" ∈ ln :=
  alias_resolution_symmetric TfixAlias "A" "B" (by decide) (by decide)
    (by decide) (by decide) (by decide) (by decide)

/-- Setting an element exchanges its `f`-contribution in the mapped sum. -/
theorem sum_map_set {α : Type} (f : α → Nat) :
    ∀ (l : List α) (i : Nat) (x : α) (hi : i < l.length),
      ((l.set i x).map f).sum + f (l.get ⟨i, hi⟩) = (l.map f).sum + f x := by
  intro l
  induction l with
  | nil => intro i x hi; simp at hi
  | cons a t ih =>
    intro i x hi
    cases i with
    | zero => simp [List.set]; omega
    | succ j =>
      have hj : j < t.length := by simpa using hi
      simp only [List.set, List.map_cons, List.sum_cons, List.get_cons_succ]
      have := ih j x hj
      omega

/-- Reading every position of a list back off `List.range` is the list. -/
theorem range_map_getD {α : Type} (d : α) :
    ∀ l : List α, (List.range l.length).map (fun i => l.getD i d) = l := by
  intro l
  induction l with
  | nil => simp
  | cons a t ih =>
    rw [List.length_cons, List.range_succ_eq_map, List.map_cons, List.map_map]
    rw [show ((fun i => (a :: t).getD i d) ∘ Nat.succ) = (fun i => t.getD i d) from rfl]
    rw [ih]
    rfl

/-- A mapped sum of pointwise sums splits. -/
theorem sum_map_add_distrib {ι : Type} (l : List ι) (f g : ι → Nat) :
    (l.map (fun i => f i + g i)).sum = (l.map f).sum + (l.map g).sum := by
  induction l with
  | nil => rfl
  | cons a t ih =>
    simp only [List.map_cons, List.sum_cons, ih]
    omega

/-- `getD` at an index other than the one being set is unchanged. -/
theorem getD_set_ne {α : Type} (l : List α) (i j : Nat) (a d : α) (h : i ≠ j) :
    (l.set i a).getD j d = l.getD j d := by
  rw [List.getD_eq_getElem?_getD, List.getD_eq_getElem?_getD, List.getElem?_set_ne h]

/-- Invariant of the `_process_yearly_article_counts` loop: with in-range
and pairwise-distinct month values whose target slots are still zero, the
final totals and month-list sums both accumulate the rows' counts. -/
theorem process_loop_invariant (year : Nat) :
    ∀ (rows : List CountRow) (ml : List MonthCount) (tn tc : Nat) (yc : YearCount),
      (∀ r ∈ rows, 1 ≤ (pyInt r.month).getD 0 ∧ (pyInt r.month).getD 0 ≤ 12) →
      (rows.map (fun r => pyInt r.month)).Nodup →
      (∀ r ∈ rows, (ml.getD ((pyInt r.month).getD 0 - 1).toNat mc0).new = 0 ∧
        (ml.getD ((pyInt r.month).getD 0 - 1).toNat mc0).cross = 0) →
      ml.length = 12 →
      process_loop year rows ml tn tc = some yc →
      yc.new_count = tn + (rows.map (fun r => r.count_new)).sum ∧
      yc.cross_count = tc + (rows.map (fun r => r.count_cross)).sum ∧
      (yc.by_month.map (fun mc => mc.new)).sum =
        (ml.map (fun mc => mc.new)).sum + (rows.map (fun r => r.count_new)).sum ∧
      (yc.by_month.map (fun mc => mc.cross)).sum =
        (ml.map (fun mc => mc.cross)).sum + (rows.map (fun r => r.count_cross)).sum ∧
      yc.by_month.length = ml.length := by
  intro rows
  induction rows with
  | nil =>
    intro ml tn tc yc _ _ _ _ hres
    unfold process_loop at hres
    rw [Option.some.injEq] at hres
    subst hres
    simp
  | cons r rest ih =>
    intro ml tn tc yc hok hnd hslots hlen hres
    obtain ⟨h1, h12⟩ := hok r (List.mem_cons_self _ _)
    cases hpi : pyInt r.month with
    | none => rw [hpi] at h1; simp at h1
    | some m =>
      rw [hpi, Option.getD_some] at h1 h12
      have hplidx : pyListIndex ml.length (m - 1) = some (m - 1).toNat := by
        unfold pyListIndex
        rw [if_pos (by omega), if_pos (by rw [hlen]; omega)]
      have hidxn : (m - 1).toNat < ml.length := by omega
      unfold process_loop at hres
      simp only [hpi, hplidx] at hres
      set x : MonthCount :=
        { ml.getD (m - 1).toNat mc0 with new := r.count_new, cross := r.count_cross } with hx
      have hnd2 := hnd
      rw [List.map_cons, List.nodup_cons] at hnd2
      have hok' : ∀ s ∈ rest, 1 ≤ (pyInt s.month).getD 0 ∧ (pyInt s.month).getD 0 ≤ 12 :=
        fun s hs => hok s (List.mem_cons_of_mem _ hs)
      have hslots' : ∀ s ∈ rest,
          (((ml.set (m - 1).toNat x).getD ((pyInt s.month).getD 0 - 1).toNat mc0).new = 0 ∧
           ((ml.set (m - 1).toNat x).getD ((pyInt s.month).getD 0 - 1).toNat mc0).cross = 0) := by
        intro s hs
        obtain ⟨hs1, hs12⟩ := hok' s hs
        have hne : pyInt r.month ≠ pyInt s.month := by
          intro hcontra
          apply hnd2.1
          rw [hcontra]
          exact List.mem_map_of_mem _ hs
        cases hpis : pyInt s.month with
        | none => rw [hpis] at hs1; simp at hs1
        | some ms =>
          rw [hpis, Option.getD_some] at hs1 hs12
          simp only [Option.getD_some]
          have hmne : m ≠ ms := by
            intro hc
            exact hne (by rw [hpi, hpis, hc])
          rw [getD_set_ne _ _ _ _ _ (by omega)]
          have := hslots s (List.mem_cons_of_mem _ hs)
          rw [hpis, Option.getD_some] at this
          exact this
      have hlen' : (ml.set (m - 1).toNat x).length = 12 := by
        rw [List.length_set]; exact hlen
      obtain ⟨c1, c2, c3, c4, c5⟩ := ih (ml.set (m - 1).toNat x)
        (tn + r.count_new) (tc + r.count_cross) yc hok' hnd2.2 hslots' hlen' hres
      have hslot0 := hslots r (List.mem_cons_self _ _)
      rw [hpi, Option.getD_some] at hslot0
      have hsn := sum_map_set (fun mc => mc.new) ml (m - 1).toNat x hidxn
      have hsc := sum_map_set (fun mc => mc.cross) ml (m - 1).toNat x hidxn
      rw [← List.getD_eq_get ml mc0 hidxn] at hsn hsc
      rw [hslot0.1] at hsn
      rw [hslot0.2] at hsc
      have hxn : x.new = r.count_new := rfl
      have hxc : x.cross = r.count_cross := rfl
      refine ⟨?_, ?_, ?_, ?_, ?_⟩
      · rw [c1]; simp only [List.map_cons, List.sum_cons]; omega
      · rw [c2]; simp only [List.map_cons, List.sum_cons]; omega
      · rw [c3]; simp only [List.map_cons, List.sum_cons]
        rw [hxn] at hsn
        omega
      · rw [c4]; simp only [List.map_cons, List.sum_cons]
        rw [hxc] at hsc
        omega
      · rw [c5, List.length_set]

/-- `_process_yearly_article_counts` conserves totals: under the
month-well-formedness precondition, the monthly sums equal the totals
and twelve month entries are produced. -/
theorem process_conserves (rows : List CountRow) (year : Nat)
    (hwf : monthsWellFormed rows) (yc : YearCount)
    (hres : _process_yearly_article_counts rows year = some yc) :
    (yc.by_month.map (fun mc => mc.new)).sum = yc.new_count ∧
    (yc.by_month.map (fun mc => mc.cross)).sum = yc.cross_count ∧
    yc.by_month.length = 12 := by
  obtain ⟨hok, hnd⟩ := hwf
  have hlen : (init_monthlist year).length = 12 := by simp [init_monthlist]
  have hslots : ∀ r ∈ rows,
      ((init_monthlist year).getD ((pyInt r.month).getD 0 - 1).toNat mc0).new = 0 ∧
      ((init_monthlist year).getD ((pyInt r.month).getD 0 - 1).toNat mc0).cross = 0 := by
    intro r hr
    obtain ⟨h1, h12⟩ := hok r hr
    have hidxn : ((pyInt r.month).getD 0 - 1).toNat < 12 := by omega
    rw [show init_monthlist year =
      (List.range 12).map (fun i => ({ year := year, month := i + 1, new := 0, cross := 0 } : MonthCount)) from rfl]
    rw [List.getD_eq_getElem _ mc0 (by simpa using hidxn)]
    simp
  have hzero_new : ((init_monthlist year).map (fun mc => mc.new)).sum = 0 := rfl
  have hzero_cross : ((init_monthlist year).map (fun mc => mc.cross)).sum = 0 := rfl
  obtain ⟨c1, c2, c3, c4, c5⟩ := process_loop_invariant year rows (init_monthlist year)
    0 0 yc hok hnd hslots hlen hres
  refine ⟨?_, ?_, ?_⟩
  · rw [c3, c1, hzero_new]
  · rw [c4, c2, hzero_cross]
  · rw [c5, hlen]


/-- The 2007 merge preserves aggregate conservation: if each operand's
monthly sums equal its totals (with twelve entries), so do the merged
result's. -/
theorem combine_conserves (yc1 yc2 : YearCount)
    (h1 : (yc1.by_month.map (fun mc => mc.new)).sum = yc1.new_count ∧
      (yc1.by_month.map (fun mc => mc.cross)).sum = yc1.cross_count ∧
      yc1.by_month.length = 12)
    (h2 : (yc2.by_month.map (fun mc => mc.new)).sum = yc2.new_count ∧
      (yc2.by_month.map (fun mc => mc.cross)).sum = yc2.cross_count ∧
      yc2.by_month.length = 12)
    (r : YearCount) (hr : _combine_yearly_article_counts yc1 yc2 = some r) :
    (r.by_month.map (fun mc => mc.new)).sum = r.new_count ∧
    (r.by_month.map (fun mc => mc.cross)).sum = r.cross_count := by
  have e1n : yc1.by_month.map (fun mc => mc.new) =
      (List.range 12).map (fun i => (yc1.by_month.getD i mc0).new) := by
    conv_lhs => rw [← range_map_getD mc0 yc1.by_month]
    rw [List.map_map, h1.2.2]
    rfl
  have e1c : yc1.by_month.map (fun mc => mc.cross) =
      (List.range 12).map (fun i => (yc1.by_month.getD i mc0).cross) := by
    conv_lhs => rw [← range_map_getD mc0 yc1.by_month]
    rw [List.map_map, h1.2.2]
    rfl
  have e2n : yc2.by_month.map (fun mc => mc.new) =
      (List.range 12).map (fun i => (yc2.by_month.getD i mc0).new) := by
    conv_lhs => rw [← range_map_getD mc0 yc2.by_month]
    rw [List.map_map, h2.2.2]
    rfl
  have e2c : yc2.by_month.map (fun mc => mc.cross) =
      (List.range 12).map (fun i => (yc2.by_month.getD i mc0).cross) := by
    conv_lhs => rw [← range_map_getD mc0 yc2.by_month]
    rw [List.map_map, h2.2.2]
    rfl
  unfold _combine_yearly_article_counts at hr
  rw [if_pos ⟨le_of_eq h1.2.2.symm, le_of_eq h2.2.2.symm⟩] at hr
  rw [Option.some.injEq] at hr
  subst hr
  constructor
  · dsimp only
    rw [List.map_map]
    rw [show ((fun mc => mc.new) ∘ fun i =>
        ({ year := yc1.year, month := i + 1,
           new := (yc1.by_month.getD i mc0).new + (yc2.by_month.getD i mc0).new,
           cross := (yc1.by_month.getD i mc0).cross + (yc2.by_month.getD i mc0).cross } : MonthCount)) =
      (fun i => (yc1.by_month.getD i mc0).new + (yc2.by_month.getD i mc0).new) from rfl]
    rw [sum_map_add_distrib, ← e1n, ← e2n, h1.1, h2.1]
  · dsimp only
    rw [List.map_map]
    rw [show ((fun mc => mc.cross) ∘ fun i =>
        ({ year := yc1.year, month := i + 1,
           new := (yc1.by_month.getD i mc0).new + (yc2.by_month.getD i mc0).new,
           cross := (yc1.by_month.getD i mc0).cross + (yc2.by_month.getD i mc0).cross } : MonthCount)) =
      (fun i => (yc1.by_month.getD i mc0).cross + (yc2.by_month.getD i mc0).cross) from rfl]
    rw [sum_map_add_distrib, ← e1c, ← e2c, h1.2.1, h2.2.1]

/-- C6: every `YearCount` returned by `get_yearly_article_counts` —
single-era or merged 2007 — has monthly "new" values summing to the
year's total "new" count, and likewise for "cross", provided each month
key extracted by the era queries parses to a distinct value in 1–12. -/
theorem yearly_counts_conserve_totals (db : DB) (archive : String) (year : Nat)
    (yc : YearCount)
    (hnew : monthsWellFormed (new_id_rows db (adjusted_archive archive) year))
    (hold : monthsWellFormed (old_id_rows db (adjusted_archive archive) year))
    (hres : get_yearly_article_counts db archive year = some yc) :
    (yc.by_month.map (fun mc => mc.new)).sum = yc.new_count ∧
    (yc.by_month.map (fun mc => mc.cross)).sum = yc.cross_count := by
  unfold get_yearly_article_counts at hres
  dsimp only at hres
  by_cases hy : year > 2007
  · rw [if_pos hy] at hres
    have h := process_conserves _ year hnew yc hres
    exact ⟨h.1, h.2.1⟩
  · rw [if_neg hy] at hres
    by_cases hy7 : year = 2007
    · rw [if_pos (by simp [hy7])] at hres
      cases holdres : _get_yearly_article_counts_old_id db (adjusted_archive archive) year with
      | none =>
        rw [holdres] at hres
        exact absurd hres (by simp)
      | some ycold =>
        cases hnewres : _get_yearly_article_counts_new_id db (adjusted_archive archive) year with
        | none =>
          rw [holdres, hnewres] at hres
          exact absurd hres (by simp)
        | some ycnew =>
          rw [holdres, hnewres] at hres
          dsimp only at hres
          exact combine_conserves ycnew ycold
            (process_conserves _ year hnew ycnew hnewres)
            (process_conserves _ year hold ycold holdres)
            yc hres
    · rw [if_neg (by simpa using hy7)] at hres
      have h := process_conserves _ year hold yc hres
      exact ⟨h.1, h.2.1⟩

/-- Witness for C6 on the fixture database, archive `cs`, year 2009. -/
theorem yearly_counts_conserve_totals_witness :
    (ycFixCounts.by_month.map (fun mc => mc.new)).sum = ycFixCounts.new_count ∧
    (ycFixCounts.by_month.map (fun mc => mc.cross)).sum = ycFixCounts.cross_count :=
  yearly_counts_conserve_totals DBfix "cs" 2009 ycFixCounts
    (by unfold monthsWellFormed; decide) (by unfold monthsWellFormed; decide) rfl

/-- A fold of `Nat.max` over a list equals 1 only if 1 occurs. -/
theorem foldr_max_eq_one (l : List Nat) (h : l.foldr Nat.max 0 = 1) : 1 ∈ l := by
  induction l with
  | nil => simp at h
  | cons a t ih =>
    simp only [List.foldr_cons] at h
    have h2 : max a (t.foldr Nat.max 0) = 1 := h
    rcases max_choice a (t.foldr Nat.max 0) with hc | hc <;> rw [hc] at h2
    · rw [h2]
      exact List.mem_cons_self _ _
    · exact List.mem_cons_of_mem _ (ih h2)

/-- Every member is bounded by the `Nat.max` fold. -/
theorem le_foldr_max (l : List Nat) (x : Nat) (hx : x ∈ l) : x ≤ l.foldr Nat.max 0 := by
  induction l with
  | nil => simp at hx
  | cons a t ih =>
    simp only [List.foldr_cons]
    rcases List.mem_cons.mp hx with h | h
    · rw [h]
      exact Nat.le_max_left _ _
    · exact le_trans (ih h) (Nat.le_max_right _ _)

/-- The `Nat.max` fold of a list of flags bounded by 1 is at most 1. -/
theorem foldr_max_le_one (l : List Nat) (h : ∀ x ∈ l, x ≤ 1) : l.foldr Nat.max 0 ≤ 1 := by
  induction l with
  | nil => simp
  | cons a t ih =>
    simp only [List.foldr_cons]
    have h1 := h a (List.mem_cons_self _ _)
    have h2 := ih (fun x hx => h x (List.mem_cons_of_mem _ hx))
    exact Nat.max_le.mpr ⟨h1, h2⟩

/-- If listing-item assembly succeeded, every row's category string had
at least one token. -/
theorem entries_ok_nonempty :
    ∀ (rows : List (Metadata × Nat)) (x : List ListingItem × List ListingItem),
      _entries_into_listing_items rows = some x →
      ∀ r ∈ rows, pySplit r.1.abs_categories ≠ [] := by
  intro rows
  induction rows with
  | nil => intro x _ r hr; simp at hr
  | cons r0 rest ih =>
    intro x hx r hr
    obtain ⟨meta, primary⟩ := r0
    rw [show _entries_into_listing_items ((meta, primary) :: rest) =
      (if pySplit meta.abs_categories = [] then none
       else
        match _entries_into_listing_items rest with
        | none => none
        | some (new_listings, cross_listings) =>
          if primary == 1 then
            some (mk_listing_item meta primary :: new_listings, cross_listings)
          else
            some (new_listings, mk_listing_item meta primary :: cross_listings)) from rfl] at hx
    by_cases hsp : pySplit meta.abs_categories = []
    · rw [if_pos hsp] at hx
      exact absurd hx (by simp)
    · rw [if_neg hsp] at hx
      rcases List.mem_cons.mp hr with heq | hmem
      · rw [heq]; exact hsp
      · cases hrest : _entries_into_listing_items rest with
        | none => rw [hrest] at hx; exact absurd hx (by simp)
        | some pr => exact ih pr hrest r hmem

/-- When every row's category string is nonempty, listing-item assembly
returns exactly the flag-partitioned, order-preserving item lists. -/
theorem entries_characterization :
    ∀ rows : List (Metadata × Nat),
      (∀ r ∈ rows, pySplit r.1.abs_categories ≠ []) →
      _entries_into_listing_items rows =
        some ((rows.filter (fun r => r.2 == 1)).map (fun r => mk_listing_item r.1 r.2),
              (rows.filter (fun r => !(r.2 == 1))).map (fun r => mk_listing_item r.1 r.2)) := by
  intro rows
  induction rows with
  | nil => intro _; rfl
  | cons r0 rest ih =>
    intro hne
    obtain ⟨meta, primary⟩ := r0
    rw [show _entries_into_listing_items ((meta, primary) :: rest) =
      (if pySplit meta.abs_categories = [] then none
       else
        match _entries_into_listing_items rest with
        | none => none
        | some (new_listings, cross_listings) =>
          if primary == 1 then
            some (mk_listing_item meta primary :: new_listings, cross_listings)
          else
            some (new_listings, mk_listing_item meta primary :: cross_listings)) from rfl]
    rw [if_neg (hne (meta, primary) (List.mem_cons_self _ _))]
    rw [ih (fun s hs => hne s (List.mem_cons_of_mem _ hs))]
    by_cases hp : primary = 1
    · rw [List.filter_cons, List.filter_cons]
      simp [hp]
    · rw [List.filter_cons, List.filter_cons]
      simp [hp]

/-- Every page row is one of the joined rows. -/
theorem page_rows_subset (db : DB) (category_list : List String) (year : Nat)
    (month : Option Nat) (skip show_ : Nat) :
    ∀ r ∈ page_rows db category_list year month skip show_,
      r ∈ joined_rows db category_list year month := by
  intro r hr
  unfold page_rows at hr
  have h1 := List.mem_of_mem_take hr
  have h2 := List.mem_of_mem_drop h1
  simpa using h2

/-- Unpacking membership in the metadata join. -/
theorem mem_joined_rows (db : DB) (category_list : List String) (year : Nat)
    (month : Option Nat) (m : Metadata) (p : Nat)
    (h : (m, p) ∈ joined_rows db category_list year month) :
    m ∈ db.metadata ∧ m.is_current = 1 ∧
      (m.document_id, p) ∈ cat_query db (doc_ids db year month) category_list := by
  unfold joined_rows main_query at h
  rcases List.mem_flatMap.mp h with ⟨row, hrow, hmem⟩
  rcases List.mem_map.mp hmem with ⟨m2, hm2, heq⟩
  rcases List.mem_filter.mp hm2 with ⟨hmeta, hcond⟩
  rw [Prod.mk.injEq] at heq
  obtain ⟨heqm, heqp⟩ := heq
  subst heqm
  rw [Bool.and_eq_true, beq_iff_eq, beq_iff_eq] at hcond
  refine ⟨hmeta, hcond.2, ?_⟩
  rw [hcond.1, ← heqp]
  exact hrow

/-- Unpacking membership in the grouped category query. -/
theorem mem_cat_query (db : DB) (ids : List Nat) (category_list : List String)
    (g flag : Nat) (h : (g, flag) ∈ cat_query db ids category_list) :
    g ∈ (filtered_cats db ids category_list).map (fun dc => dc.document_id) ∧
    flag = (((filtered_cats db ids category_list).filter
      (fun dc => dc.document_id == g)).map (fun dc => dc.is_primary)).foldr Nat.max 0 := by
  unfold cat_query at h
  dsimp only at h
  rcases List.mem_map.mp h with ⟨g2, hg2, heq⟩
  rw [Prod.mk.injEq] at heq
  obtain ⟨heqg, heqf⟩ := heq
  subst heqg
  exact ⟨List.mem_dedup.mp hg2, heqf.symm⟩

/-- Unpacking membership in the filtered category rows. -/
theorem mem_filtered_cats (db : DB) (ids : List Nat) (category_list : List String)
    (dc : DocumentCategory) :
    dc ∈ filtered_cats db ids category_list ↔
      dc ∈ db.document_categories ∧ dc.document_id ∈ ids ∧ dc.category ∈ category_list := by
  unfold filtered_cats
  rw [List.mem_filter, Bool.and_eq_true]
  constructor
  · rintro ⟨h1, h2, h3⟩
    exact ⟨h1, List.elem_iff.mp h2, List.elem_iff.mp h3⟩
  · rintro ⟨h1, h2, h3⟩
    exact ⟨h1, List.elem_iff.mpr h2, List.elem_iff.mpr h3⟩

/-- Flags produced by the grouped category query are 0/1 when the
association table's `is_primary` column is 0/1. -/
theorem cat_query_flag_le_one (db : DB) (ids : List Nat) (category_list : List String)
    (g flag : Nat)
    (hprim_le : ∀ dc ∈ db.document_categories, dc.is_primary ≤ 1)
    (h : (g, flag) ∈ cat_query db ids category_list) : flag ≤ 1 := by
  obtain ⟨_, hflag⟩ := mem_cat_query db ids category_list g flag h
  rw [hflag]
  apply foldr_max_le_one
  intro x hx
  rcases List.mem_map.mp hx with ⟨dc, hdc, heq⟩
  rw [← heq]
  exact hprim_le dc ((mem_filtered_cats db ids category_list dc).mp
    (List.mem_filter.mp hdc).1).1

/-- A successful `get_articles_for_month` call produces exactly the
flag-partitioned items of the ordered page rows, all of which carry a
nonempty category string. -/
theorem get_articles_ok_destruct (T : Taxonomy) (db : DB) (tok : String) (year : Nat)
    (month : Option Nat) (skip show_ : Nat) (L : Listing) (category_list : List String)
    (hcl : _all_possible_categories T tok = .ok category_list)
    (hres : get_articles_for_month T db tok year month skip show_ = .ok L) :
    (∀ r ∈ page_rows db category_list year month skip show_,
      pySplit r.1.abs_categories ≠ []) ∧
    L.listings =
      ((page_rows db category_list year month skip show_).filter (fun r => r.2 == 1)).map
        (fun r => mk_listing_item r.1 r.2) ++
      ((page_rows db category_list year month skip show_).filter (fun r => !(r.2 == 1))).map
        (fun r => mk_listing_item r.1 r.2) := by
  unfold get_articles_for_month at hres
  rw [hcl] at hres
  dsimp only at hres
  have hne : ∀ r ∈ page_rows db category_list year month skip show_,
      pySplit r.1.abs_categories ≠ [] := by
    cases hent : _entries_into_listing_items (page_rows db category_list year month skip show_) with
    | none =>
      rw [hent] at hres
      exact absurd hres (by simp)
    | some pr => exact entries_ok_nonempty _ pr hent
  refine ⟨hne, ?_⟩
  rw [entries_characterization _ hne] at hres
  dsimp only at hres
  rw [Except.ok.injEq] at hres
  rw [← hres]

/-- Under the data-consistency hypotheses (boolean primary flags, the
primary association naming the first category-string token, and a
primary association existing whenever any association does), a joined
row's any-primary flag is 1 exactly when the first token of its
category string is in the resolved category list. -/
theorem row_flag_iff (db : DB) (category_list : List String) (year : Nat)
    (month : Option Nat) (m : Metadata) (p : Nat)
    (hprim_le : ∀ dc ∈ db.document_categories, dc.is_primary ≤ 1)
    (hprim_cat : ∀ dc ∈ db.document_categories, dc.is_primary = 1 →
      ∀ m2 ∈ db.metadata, m2.is_current = 1 → m2.document_id = dc.document_id →
      (pySplit m2.abs_categories).head? = some dc.category)
    (hprim_ex : ∀ m2 ∈ db.metadata, m2.is_current = 1 →
      (∃ dc ∈ db.document_categories, dc.document_id = m2.document_id) →
      ∃ dc2 ∈ db.document_categories, dc2.document_id = m2.document_id ∧
        dc2.is_primary = 1 ∧ (pySplit m2.abs_categories).head? = some dc2.category)
    (hj : (m, p) ∈ joined_rows db category_list year month)
    (hne : pySplit m.abs_categories ≠ []) :
    (p = 1 ↔ (pySplit m.abs_categories).headD "" ∈ category_list) := by
  obtain ⟨hmeta, hcur, hcq⟩ := mem_joined_rows db category_list year month m p hj
  obtain ⟨hgmem, hflag⟩ := mem_cat_query db (doc_ids db year month) category_list
    m.document_id p hcq
  obtain ⟨dc0, hdc0f, hdc0id⟩ := List.mem_map.mp hgmem
  obtain ⟨hdc0mem, hdc0ids, hdc0cl⟩ := (mem_filtered_cats _ _ _ _).mp hdc0f
  cases hsp : pySplit m.abs_categories with
  | nil => exact absurd hsp hne
  | cons t0 ts =>
    show p = 1 ↔ t0 ∈ category_list
    constructor
    · intro hp1
      rw [hflag] at hp1
      have h1mem := foldr_max_eq_one _ hp1
      obtain ⟨dc, hdcmem2, hdceq⟩ := List.mem_map.mp h1mem
      obtain ⟨hdcf, hdcid⟩ := List.mem_filter.mp hdcmem2
      obtain ⟨hdcmem, _, hdccl⟩ := (mem_filtered_cats _ _ _ _).mp hdcf
      have hh := hprim_cat dc hdcmem hdceq m hmeta hcur
        (by rw [beq_iff_eq] at hdcid; rw [hdcid])
      rw [hsp] at hh
      simp only [List.head?_cons, Option.some.injEq] at hh
      rw [hh]
      exact hdccl
    · intro htm
      by_contra hp
      obtain ⟨dc2, hdc2mem, hdc2id, hdc2p, hdc2head⟩ :=
        hprim_ex m hmeta hcur ⟨dc0, hdc0mem, hdc0id⟩
      rw [hsp] at hdc2head
      simp only [List.head?_cons, Option.some.injEq] at hdc2head
      have hdc2f : dc2 ∈ filtered_cats db (doc_ids db year month) category_list := by
        refine (mem_filtered_cats _ _ _ _).mpr ⟨hdc2mem, ?_, ?_⟩
        · rw [hdc2id, ← hdc0id]
          exact hdc0ids
        · rw [← hdc2head]
          exact htm
      have hvals : dc2.is_primary ∈
          (((filtered_cats db (doc_ids db year month) category_list).filter
            (fun dc => dc.document_id == m.document_id)).map (fun dc => dc.is_primary)) := by
        apply List.mem_map_of_mem
        exact List.mem_filter.mpr ⟨hdc2f, by rw [beq_iff_eq]; exact hdc2id⟩
      have hge := le_foldr_max _ _ hvals
      rw [hdc2p, ← hflag] at hge
      have hle : p ≤ 1 :=
        cat_query_flag_le_one db _ category_list m.document_id p hprim_le hcq
      exact hp (by omega)

/-- C1: in every listing returned by `get_articles_for_month`, an item's
`listingType` is `"new"` iff the document's primary category (the first
token of its space-separated category string) belongs to the resolved
equivalence set; all other items are `"cross"`.  The database is assumed
consistent: `is_primary` flags are 0/1, a primary association's category
is the first token of the document's current category string, and a
document with any association has a primary one. -/
theorem listing_partition (T : Taxonomy) (db : DB) (tok : String) (year : Nat)
    (month : Option Nat) (skip show_ : Nat) (L : Listing) (category_list : List String)
    (hcl : _all_possible_categories T tok = .ok category_list)
    (hprim_le : ∀ dc ∈ db.document_categories, dc.is_primary ≤ 1)
    (hprim_cat : ∀ dc ∈ db.document_categories, dc.is_primary = 1 →
      ∀ m2 ∈ db.metadata, m2.is_current = 1 → m2.document_id = dc.document_id →
      (pySplit m2.abs_categories).head? = some dc.category)
    (hprim_ex : ∀ m2 ∈ db.metadata, m2.is_current = 1 →
      (∃ dc ∈ db.document_categories, dc.document_id = m2.document_id) →
      ∃ dc2 ∈ db.document_categories, dc2.document_id = m2.document_id ∧
        dc2.is_primary = 1 ∧ (pySplit m2.abs_categories).head? = some dc2.category)
    (hres : get_articles_for_month T db tok year month skip show_ = .ok L) :
    ∀ item ∈ L.listings, (item.listingType = "new" ↔ item.primary ∈ category_list) := by
  obtain ⟨hne, hllist⟩ :=
    get_articles_ok_destruct T db tok year month skip show_ L category_list hcl hres
  intro item hitem
  rw [hllist] at hitem
  rcases List.mem_append.mp hitem with hmem | hmem
  · obtain ⟨r, hrf, hritem⟩ := List.mem_map.mp hmem
    obtain ⟨hr_rows, hq⟩ := List.mem_filter.mp hrf
    obtain ⟨m, p⟩ := r
    have hp1 : p = 1 := by simpa using hq
    rw [← hritem]
    have hiff := row_flag_iff db category_list year month m p hprim_le hprim_cat hprim_ex
      (page_rows_subset db category_list year month skip show_ _ hr_rows)
      (hne _ hr_rows)
    have htype : (mk_listing_item m p).listingType = "new" := by
      simp [mk_listing_item, hp1]
    have hprimeq : (mk_listing_item m p).primary =
      (pySplit m.abs_categories).headD "" := rfl
    rw [htype, hprimeq]
    constructor
    · intro _
      exact hiff.mp hp1
    · intro _
      rfl
  · obtain ⟨r, hrf, hritem⟩ := List.mem_map.mp hmem
    obtain ⟨hr_rows, hq⟩ := List.mem_filter.mp hrf
    obtain ⟨m, p⟩ := r
    have hp1 : p ≠ 1 := by simpa using hq
    rw [← hritem]
    have hiff := row_flag_iff db category_list year month m p hprim_le hprim_cat hprim_ex
      (page_rows_subset db category_list year month skip show_ _ hr_rows)
      (hne _ hr_rows)
    have htype : (mk_listing_item m p).listingType = "cross" := by
      simp [mk_listing_item, hp1]
    have hprimeq : (mk_listing_item m p).primary =
      (pySplit m.abs_categories).headD "" := rfl
    rw [htype, hprimeq]
    constructor
    · intro hcontra
      exact absurd hcontra (by decide)
    · intro hmemcl
      exact absurd (hiff.mpr hmemcl) hp1

/-- Witness for C1 on the fixture database: the March 2009 `cs.AI` page
contains the primary-`cs.AI` document as an item whose type is `"new"`
iff its primary category is in the resolved set. -/
theorem listing_partition_witness :
    (mk_listing_item (fixMeta 1 "0903.0001" "cs.AI cs.LG" 1) 1).listingType = "new" ↔
      (mk_listing_item (fixMeta 1 "0903.0001" "cs.AI cs.LG" 1) 1).primary ∈ ["cs.AI"] :=
  listing_partition Tfix DBfix "cs.AI" 2009 (some 3) 0 5 LfixMonthly ["cs.AI"]
    rfl (by decide) (by decide) (by decide) rfl
    (mk_listing_item (fixMeta 1 "0903.0001" "cs.AI cs.LG" 1) 1) (by decide)

/-- Totality of the lexicographic character-list order. -/
theorem charListLE_total : ∀ a b : List Char, charListLE a b = true ∨ charListLE b a = true := by
  intro a
  induction a with
  | nil => intro b; left; rfl
  | cons x xs ih =>
    intro b
    cases b with
    | nil => right; rfl
    | cons y ys =>
      show (if x == y then charListLE xs ys else decide (x < y)) = true ∨
        (if y == x then charListLE ys xs else decide (y < x)) = true
      by_cases hxy : x = y
      · rw [if_pos (beq_iff_eq.mpr hxy), if_pos (beq_iff_eq.mpr hxy.symm)]
        exact ih ys
      · rw [if_neg (by simpa using hxy), if_neg (by simpa using (fun h => hxy h.symm : ¬y = x))]
        rcases lt_or_gt_of_ne hxy with h | h
        · left; exact decide_eq_true h
        · right; exact decide_eq_true h

/-- Transitivity of the lexicographic character-list order. -/
theorem charListLE_trans :
    ∀ a b c : List Char, charListLE a b = true → charListLE b c = true →
      charListLE a c = true := by
  intro a
  induction a with
  | nil => intro b c _ _; rfl
  | cons x xs ih =>
    intro b c hab hbc
    cases b with
    | nil => exact absurd hab (by simp [charListLE])
    | cons y ys =>
      cases c with
      | nil => exact absurd hbc (by simp [charListLE])
      | cons z zs =>
        rw [show charListLE (x :: xs) (y :: ys) =
          (if x == y then charListLE xs ys else decide (x < y)) from rfl] at hab
        rw [show charListLE (y :: ys) (z :: zs) =
          (if y == z then charListLE ys zs else decide (y < z)) from rfl] at hbc
        show (if x == z then charListLE xs zs else decide (x < z)) = true
        by_cases hxy : x = y
        · rw [if_pos (beq_iff_eq.mpr hxy)] at hab
          by_cases hyz : y = z
          · rw [if_pos (beq_iff_eq.mpr hyz)] at hbc
            rw [if_pos (beq_iff_eq.mpr (hxy.trans hyz))]
            exact ih ys zs hab hbc
          · rw [if_neg (by simpa using hyz)] at hbc
            have hylt : y < z := of_decide_eq_true hbc
            have hxz : x < z := hxy ▸ hylt
            rw [if_neg (by simpa using ne_of_lt hxz)]
            exact decide_eq_true hxz
        · rw [if_neg (by simpa using hxy)] at hab
          have hxlt : x < y := of_decide_eq_true hab
          by_cases hyz : y = z
          · have hxz : x < z := hyz ▸ hxlt
            rw [if_neg (by simpa using ne_of_lt hxz)]
            exact decide_eq_true hxz
          · rw [if_neg (by simpa using hyz)] at hbc
            have hylt : y < z := of_decide_eq_true hbc
            have hxz : x < z := lt_trans hxlt hylt
            rw [if_neg (by simpa using ne_of_lt hxz)]
            exact decide_eq_true hxz

/-- The ORDER BY relation is total. -/
instance : IsTotal (Metadata × Nat) rowRel where
  total a b := by
    unfold rowRel row_le
    rcases Nat.lt_trichotomy a.2 b.2 with h | h | h
    · right
      simp [h]
    · rcases charListLE_total a.1.paper_id.toList b.1.paper_id.toList with hc | hc
      · left
        simp only [h, str_le]
        simp only [beq_self_eq_true, Bool.true_and, Bool.or_eq_true, decide_eq_true_eq]
        right
        exact hc
      · right
        simp only [← h, str_le]
        simp only [beq_self_eq_true, Bool.true_and, Bool.or_eq_true, decide_eq_true_eq]
        right
        exact hc
    · left
      simp [h]

/-- The ORDER BY relation is transitive. -/
instance : IsTrans (Metadata × Nat) rowRel where
  trans a b c hab hbc := by
    unfold rowRel row_le at hab hbc ⊢
    simp only [Bool.or_eq_true, Bool.and_eq_true, decide_eq_true_eq, beq_iff_eq] at hab hbc ⊢
    rcases hab with h1 | ⟨h1, h1s⟩
    · rcases hbc with h2 | ⟨h2, h2s⟩
      · left; omega
      · left; omega
    · rcases hbc with h2 | ⟨h2, h2s⟩
      · left; omega
      · right
        refine ⟨by omega, ?_⟩
        exact charListLE_trans _ _ _ h1s h2s

/-- C3: in every listing returned by `get_articles_for_month`, all
`"new"` items precede all `"cross"` items, and within each group paper
ids are in ascending (lexicographic) order, assuming 0/1 `is_primary`
flags. -/
theorem listing_ordering (T : Taxonomy) (db : DB) (tok : String) (year : Nat)
    (month : Option Nat) (skip show_ : Nat) (L : Listing)
    (hprim_le : ∀ dc ∈ db.document_categories, dc.is_primary ≤ 1)
    (hres : get_articles_for_month T db tok year month skip show_ = .ok L) :
    L.listings.Pairwise (fun a b =>
      (b.listingType = "new" → a.listingType = "new") ∧
      (a.listingType = b.listingType → str_le a.id b.id = true)) := by
  cases hcl : _all_possible_categories T tok with
  | error e =>
    unfold get_articles_for_month at hres
    rw [hcl] at hres
    exact absurd hres (by simp)
  | ok category_list =>
    obtain ⟨hne, hllist⟩ :=
      get_articles_ok_destruct T db tok year month skip show_ L category_list hcl hres
    rw [hllist]
    have hsorted : (List.insertionSort rowRel (joined_rows db category_list year month)).Pairwise rowRel :=
      List.sorted_insertionSort rowRel _
    have hpage : (page_rows db category_list year month skip show_).Pairwise rowRel := by
      refine List.Pairwise.sublist ?_ hsorted
      unfold page_rows
      exact (List.take_sublist _ _).trans (List.drop_sublist _ _)
    have hflagle : ∀ r ∈ page_rows db category_list year month skip show_, r.2 ≤ 1 := by
      intro r hr
      obtain ⟨m, p⟩ := r
      obtain ⟨_, _, hcq⟩ := mem_joined_rows db category_list year month m p
        (page_rows_subset db category_list year month skip show_ _ hr)
      exact cat_query_flag_le_one db _ category_list m.document_id p hprim_le hcq
    rw [List.pairwise_append]
    refine ⟨?_, ?_, ?_⟩
    · rw [List.pairwise_map]
      refine List.Pairwise.imp_of_mem ?_
        (List.Pairwise.sublist (List.filter_sublist _) hpage)
      intro a b ha hb hr
      have ha1 : a.2 = 1 := by simpa using (List.mem_filter.mp ha).2
      have hb1 : b.2 = 1 := by simpa using (List.mem_filter.mp hb).2
      constructor
      · intro _
        simp [mk_listing_item, ha1]
      · intro _
        unfold rowRel row_le at hr
        simp only [Bool.or_eq_true, Bool.and_eq_true, decide_eq_true_eq, beq_iff_eq] at hr
        rcases hr with h | ⟨_, hs⟩
        · exact absurd h (by omega)
        · exact hs
    · rw [List.pairwise_map]
      refine List.Pairwise.imp_of_mem ?_
        (List.Pairwise.sublist (List.filter_sublist _) hpage)
      intro a b ha hb hr
      have ha0 : a.2 ≠ 1 := by simpa using (List.mem_filter.mp ha).2
      have hb0 : b.2 ≠ 1 := by simpa using (List.mem_filter.mp hb).2
      have hale := hflagle a (List.mem_filter.mp ha).1
      have hble := hflagle b (List.mem_filter.mp hb).1
      constructor
      · intro hcontra
        exfalso
        have hty : (mk_listing_item b.1 b.2).listingType = "cross" := by
          simp [mk_listing_item, hb0]
        rw [hty] at hcontra
        exact absurd hcontra (by decide)
      · intro _
        unfold rowRel row_le at hr
        simp only [Bool.or_eq_true, Bool.and_eq_true, decide_eq_true_eq, beq_iff_eq] at hr
        rcases hr with h | ⟨_, hs⟩
        · exact absurd h (by omega)
        · exact hs
    · intro a ha b hb
      obtain ⟨ra, hraf, hraeq⟩ := List.mem_map.mp ha
      obtain ⟨rb, hrbf, hrbeq⟩ := List.mem_map.mp hb
      have hra1 : ra.2 = 1 := by simpa using (List.mem_filter.mp hraf).2
      have hrb0 : rb.2 ≠ 1 := by simpa using (List.mem_filter.mp hrbf).2
      constructor
      · intro _
        rw [← hraeq]
        simp [mk_listing_item, hra1]
      · intro htypes
        exfalso
        rw [← hraeq, ← hrbeq] at htypes
        have h1 : (mk_listing_item ra.1 ra.2).listingType = "new" := by
          simp [mk_listing_item, hra1]
        have h2 : (mk_listing_item rb.1 rb.2).listingType = "cross" := by
          simp [mk_listing_item, hrb0]
        rw [h1, h2] at htypes
        exact absurd htypes (by decide)

/-- Witness for C3 on the fixture database. -/
theorem listing_ordering_witness :
    LfixMonthly.listings.Pairwise (fun a b =>
      (b.listingType = "new" → a.listingType = "new") ∧
      (a.listingType = b.listingType → str_le a.id b.id = true)) :=
  listing_ordering Tfix DBfix "cs.AI" 2009 (some 3) 0 5 LfixMonthly (by decide) rfl
